import Mathlib

/-!
# Verification of the hive worker-orchestration core

Shallow embedding of the `hive` CLI source (TypeScript) in Lean 4, together
with theorems settling the frozen specification claims.

Modelling conventions:
* The filesystem seen by the status store and config reader is a map from
  path to file content, `Fs := String → Option String` (`none` = the file
  does not exist).
* `JSON.parse` followed by an unchecked cast is a platform builtin, not code
  of this repository; it is modelled as an abstract parameter
  `parse : String → Except String α` (`.error` = the parse throws).
* Code that can throw is modelled in `Except`; a `try/catch` in the source
  becomes a `match` on the `Except` value.
* The tmux host is an external collaborator; its operations are modelled as
  a record of state-transforming functions returning a success flag
  (`false` = `execSync` threw).
-/

namespace Hive

/-- A filesystem snapshot: path to file content, `none` when absent. -/
abbrev Fs := String → Option String

/-- `readFileSync`: returns the content, throws (`.error`) on a missing path. -/
def readFileSync (fs : Fs) (path : String) : Except String String :=
  match fs path with
  | some c => .ok c
  | none => .error "ENOENT"

/-- POSIX `basename`: the last `/`-separated component of a path. -/
def basename (p : String) : String :=
  (p.splitOn "/").getLastD ""

/-- POSIX `dirname`: the path with its last component removed. -/
def dirname (p : String) : String :=
  String.intercalate "/" (p.splitOn "/").dropLast

/-! ## Data model (`workers.ts`)

`WorkerStatus.status` is declared as a closed union in TypeScript but that
annotation is erased at runtime: `JSON.parse` is cast without validation, so
any string can occur and the display maps unrecognized values to an
`unknown` bucket.  The embedding therefore uses `String`. -/

/-- `WorkerStatus.subagent` from `workers.ts`. -/
structure Subagent where
  name : String
  status : String
  message : Option String
deriving DecidableEq, Repr

/-- `WorkerStatus` from `workers.ts`: the per-slot status document. -/
structure WorkerStatus where
  status : String
  branch : Option String
  current : Option String
  percent : Option Int
  subagent : Option Subagent
deriving DecidableEq, Repr

/-- `WorkerInfo` from `workers.ts`: the aggregated per-slot snapshot. -/
structure WorkerInfo where
  id : Nat
  sessionName : String
  worktreePath : String
  logPath : String
  running : Bool
  status : Option WorkerStatus
deriving DecidableEq, Repr

/-- `WORKER_COUNT` from `workers.ts`. -/
def WORKER_COUNT : Nat := 4

/-- `LOG_DIR` from `workers.ts`. -/
def LOG_DIR : String := "/tmp"

/-- `getProjectConfig` result record. -/
structure ProjectConfig where
  projectRoot : String
  projectName : String
  hiveDir : String
  worktreeBase : String
deriving DecidableEq, Repr

/-- `getProjectConfig` from `workers.ts`, with `process.cwd()` passed
explicitly. -/
def getProjectConfig (cwd : String) : ProjectConfig :=
  let projectRoot := cwd
  let projectName := basename projectRoot
  { projectRoot := projectRoot
    projectName := projectName
    hiveDir := projectRoot ++ "/.hive"
    worktreeBase := dirname projectRoot ++ "/.worktrees/" ++ projectName }

/-- `getWorkerSessionName` from `workers.ts`. -/
def getWorkerSessionName (projectName : String) (workerId : Nat) : String :=
  "hive-" ++ projectName ++ "-worker-" ++ toString workerId

/-- `getWorkerLogPath` from `workers.ts`. -/
def getWorkerLogPath (projectName : String) (workerId : Nat) : String :=
  LOG_DIR ++ "/hive-" ++ projectName ++ "-worker-" ++ toString workerId ++ ".log"

/-- `getWorktreePath` from `workers.ts`. -/
def getWorktreePath (worktreeBase : String) (workerId : Nat) : String :=
  worktreeBase ++ "/worker-" ++ toString workerId

/-! ## Status store (`readWorkerStatus`) -/

/-- The status-file path used by `readWorkerStatus`:
`join(hiveDir, 'status', 'worker-N.json')`. -/
def statusFilePath (hiveDir : String) (workerId : Nat) : String :=
  hiveDir ++ "/status/worker-" ++ toString workerId ++ ".json"

/-- `readWorkerStatus` from `workers.ts`.  The result type `Except` records
that the body could in principle throw; the `try/catch` in the source turns
every read or parse failure into `undefined` (`.ok none`), which the theorems
below make precise. -/
def readWorkerStatus (parse : String → Except String WorkerStatus) (fs : Fs)
    (hiveDir : String) (workerId : Nat) : Except String (Option WorkerStatus) :=
  let statusFile := statusFilePath hiveDir workerId
  if (fs statusFile).isSome then
    match readFileSync fs statusFile >>= parse with
    | .ok s => .ok (some s)
    | .error _ => .ok none
  else
    .ok none

/-- The value produced by `readWorkerStatus` (it never throws; the `.error`
branch is unreachable, as proved below). -/
def readWorkerStatusVal (parse : String → Except String WorkerStatus) (fs : Fs)
    (hiveDir : String) (workerId : Nat) : Option WorkerStatus :=
  match readWorkerStatus parse fs hiveDir workerId with
  | .ok v => v
  | .error _ => none

/-! ## Status aggregator (`getWorkersInfo`, `useWorkerStatus`) -/

/-- `getWorkersInfo` from `workers.ts`, parameterized by the session host's
existence query (`tmux has-session`), the JSON parse, the filesystem and the
working directory.  The source loop `for i = 1..WORKER_COUNT` appending to an
array is rendered as a map over `List.range`. -/
def getWorkersInfo (sessionExists : String → Bool)
    (parse : String → Except String WorkerStatus) (fs : Fs) (cwd : String) :
    List WorkerInfo :=
  let config := getProjectConfig cwd
  (List.range WORKER_COUNT).map (fun k =>
    let i := k + 1
    { id := i
      sessionName := getWorkerSessionName config.projectName i
      worktreePath := getWorktreePath config.worktreeBase i
      logPath := getWorkerLogPath config.projectName i
      running := sessionExists (getWorkerSessionName config.projectName i)
      status := readWorkerStatusVal parse fs config.hiveDir i })

/-- One tick of the `useWorkerStatus` poll (dashboard hook): the React state
is replaced wholesale by a fresh `getWorkersInfo()` snapshot; the previous
value is not consulted. -/
def useWorkerStatusTick (sessionExists : String → Bool)
    (parse : String → Except String WorkerStatus) (fs : Fs) (cwd : String)
    (_prev : List WorkerInfo) : List WorkerInfo :=
  getWorkersInfo sessionExists parse fs cwd

/-! ## Display (`WorkerCard`, `listWorkers`)

JavaScript `a || b` on strings falls back when `a` is absent, `undefined`
or the empty string (the empty string is falsy). -/

/-- JS `a || b` for an optional string `a` and a string default `b`. -/
def jsOr (a : Option String) (b : String) : String :=
  match a with
  | some s => if s = "" then b else s
  | none => b

/-- JS truthiness filter for an optional string used in `cond && render`. -/
def jsTruthy (a : Option String) : Option String :=
  match a with
  | some s => if s = "" then none else some s
  | none => none

/-- `STATUS_ICONS` from `WorkerCard`: status key to (icon, theme color key).
`none` for keys not in the record (JS property lookup yields `undefined`). -/
def STATUS_ICONS (s : String) : Option (String × String) :=
  if s = "idle" then some ("○", "textDim")
  else if s = "coding" then some ("●", "success")
  else if s = "testing" then some ("◐", "warning")
  else if s = "reviewing" then some ("●", "info")
  else if s = "ready_for_review" then some ("◉", "info")
  else if s = "approved" then some ("✓", "success")
  else if s = "unknown" then some ("?", "textDim")
  else none

/-- The status-derived data a `WorkerCard` renders.  Per-worker log lines
come from `useWorkerLogs`, not from the status document, and are therefore
not part of this view. -/
structure CardView where
  workerId : Nat
  running : Bool
  statusKey : String
  icon : String
  colorKey : String
  branch : String
  current : Option String
  subagent : Option Subagent
deriving DecidableEq, Repr

/-- The field extraction performed by `WorkerCard` (StatusBar.tsx):
`status = worker.status?.status || (worker.running ? 'idle' : 'stopped')`,
`statusConfig = STATUS_ICONS[status] || STATUS_ICONS.unknown`,
`branch = worker.status?.branch || '—'`, `subagent = worker.status?.subagent`,
and `worker.status?.current` rendered only when truthy. -/
def workerCardView (worker : WorkerInfo) : CardView :=
  let status := jsOr (worker.status.map WorkerStatus.status)
    (if worker.running then "idle" else "stopped")
  let statusConfig := (STATUS_ICONS status).getD ("?", "textDim")
  let branch := jsOr (worker.status.bind WorkerStatus.branch) "—"
  let subagent := worker.status.bind WorkerStatus.subagent
  { workerId := worker.id
    running := worker.running
    statusKey := status
    icon := statusConfig.1
    colorKey := statusConfig.2
    branch := branch
    current := jsTruthy (worker.status.bind WorkerStatus.current)
    subagent := subagent }

/-- One row printed by `listWorkers` (workers.ts): status icon choice,
status text, `worker.status?.status || 'unknown'`,
`worker.status?.branch || '-'`, and the optional subagent line. -/
structure ListRow where
  running : Bool
  statusText : String
  workerStatus : String
  branch : String
  subagentLine : Option String
deriving DecidableEq, Repr

/-- The per-worker row computed by `listWorkers` in `workers.ts`. -/
def listWorkerRow (worker : WorkerInfo) : ListRow :=
  { running := worker.running
    statusText := if worker.running then "running" else "stopped"
    workerStatus := jsOr (worker.status.map WorkerStatus.status) "unknown"
    branch := jsOr (worker.status.bind WorkerStatus.branch) "-"
    subagentLine := (worker.status.bind WorkerStatus.subagent).map (fun sa =>
      "[" ++ sa.name ++ "] " ++ sa.status ++ ": " ++ jsOr sa.message "") }

/-! ## Configuration (`config.ts`, src/unnamed/part_000) -/

/-- `HiveConfig`: the config document.  `theme` is declared as a closed union
in TypeScript, but `JSON.parse` is cast without validation, so the embedding
uses `String`. -/
structure HiveConfig where
  theme : Option String
deriving DecidableEq, Repr

instance : EmptyCollection HiveConfig := ⟨⟨none⟩⟩

/-- `GLOBAL_CONFIG_PATH`, with `homedir()` passed explicitly. -/
def globalConfigPath (home : String) : String :=
  home ++ "/.config/hivecode/config.json"

/-- `getLocalConfigPath` from the config module. -/
def getLocalConfigPath (projectRoot : String) : String :=
  projectRoot ++ "/.hive/config.json"

/-- `readConfigFile`: `try { if exists then parse(read) } catch {}` followed
by `return {}` — every missing file, read error or parse error yields the
empty config; the function is total (never throws). -/
def readConfigFile (parse : String → Except String HiveConfig) (fs : Fs)
    (path : String) : HiveConfig :=
  if (fs path).isSome then
    match readFileSync fs path >>= parse with
    | .ok c => c
    | .error _ => {}
  else
    {}

/-- `getGlobalConfig` from the config module. -/
def getGlobalConfig (parse : String → Except String HiveConfig) (fs : Fs)
    (home : String) : HiveConfig :=
  readConfigFile parse fs (globalConfigPath home)

/-- `getLocalConfig` from the config module. -/
def getLocalConfig (parse : String → Except String HiveConfig) (fs : Fs)
    (projectRoot : String) : HiveConfig :=
  readConfigFile parse fs (getLocalConfigPath projectRoot)

/-- `getMergedConfig`: the JS spread `{...global, ...local}` — a key present
in the local document wins per key.  (`JSON.parse` never produces the JS
value `undefined`, so a parsed local key is present exactly when the
`Option` is `some`.) -/
def getMergedConfig (parse : String → Except String HiveConfig) (fs : Fs)
    (home : String) (projectRoot : Option String) : HiveConfig :=
  let globalCfg := getGlobalConfig parse fs home
  let localCfg := match projectRoot with
    | some r => getLocalConfig parse fs r
    | none => ({} : HiveConfig)
  { theme := localCfg.theme <|> globalCfg.theme }

/-- `getConfigValue` for the only config key (`theme`):
`getMergedConfig(projectRoot)[key]`. -/
def getConfigValue (parse : String → Except String HiveConfig) (fs : Fs)
    (home : String) (projectRoot : Option String) : Option String :=
  (getMergedConfig parse fs home projectRoot).theme

/-- A config file at `path` is missing, or its content fails to parse — the
cases `readConfigFile`'s `try/catch` maps to the empty config. -/
abbrev configFileBad (parse : String → Except String HiveConfig) (fs : Fs)
    (path : String) : Prop :=
  fs path = none ∨ ∃ c e, fs path = some c ∧ parse c = .error e

/-! ## Log tailer (`useWorkerLogs`, useGitStatus.ts) -/

/-- `MAX_LINES` from `useWorkerLogs`. -/
def MAX_LINES : Nat := 100

/-- The mutable state of one `useWorkerLogs` tailer: the retained line
window (`lines` React state) and `lastSizeRef.current`. -/
structure TailState where
  lines : List String
  lastSize : Nat
deriving DecidableEq, Repr

/-- One `pollLog` step of `useWorkerLogs`.  The tracked file is `none` when
it does not exist (`existsSync` false: the poll returns at once) and
`some content` otherwise (its size is the content length).  The source reads
only when the size has grown, keeps the last `MAX_LINES` non-blank lines
(`slice(-MAX_LINES)`), and updates the tracked size; in every other case the
state is left untouched. -/
def pollLog (file : Option String) (st : TailState) : TailState :=
  match file with
  | none => st
  | some content =>
    let currentSize := content.length
    if currentSize > st.lastSize then
      let allLines := (content.splitOn "\n").filter (fun l => l.trim ≠ "")
      let recentLines := allLines.drop (allLines.length - MAX_LINES)
      { lines := recentLines, lastSize := currentSize }
    else
      st

/-! ## Modal key dispatcher (`embedded/keybindings.ts`)

`setupKeybindings` installs a `hive` key table via `tmux bind-key -T hive`.
The commands bound are modelled by `TmuxCmd`; only `switch-client -T`
changes the client's active key table.  The status-bar content strings are
opaque parameters (their text does not influence dispatch). -/

/-- The tmux commands occurring in the hive-mode bindings. -/
inductive TmuxCmd where
  | setOptionStatusRight (target value : String)
  | switchClientTable (table : String)
  | switchClientSession (session : String)
  | resizePaneZoom (target : String)
  | ifShellHasSession (session : String) (thenCmd : TmuxCmd) (elseCmd : TmuxCmd)
  | displayMessage (msg : String)
  | runShell (cmd : String)
deriving DecidableEq, Repr

/-- `exitHiveMode` from `setupKeybindings`: restore the normal status bar and
`switch-client -T root`. -/
def exitHiveMode (sessionName normalStatusRight : String) : List TmuxCmd :=
  [TmuxCmd.setOptionStatusRight sessionName normalStatusRight,
   TmuxCmd.switchClientTable "root"]

/-- The `hive` key table installed by `setupKeybindings`: one entry per
`bindHive` call, in source order (`w`, the `1`..`4` loop, `q`, `t`,
`Escape`). -/
def hiveTable (sessionName projectName normalStatusRight : String) :
    List (String × List TmuxCmd) :=
  [("w", [TmuxCmd.resizePaneZoom (sessionName ++ ":0.0")] ++
         exitHiveMode sessionName normalStatusRight)]
  ++ (List.range 4).map (fun k =>
      let i := k + 1
      let workerSession := getWorkerSessionName projectName i
      (toString i,
       [TmuxCmd.ifShellHasSession workerSession
          (TmuxCmd.switchClientSession workerSession)
          (TmuxCmd.displayMessage ("Worker-" ++ toString i ++ " not running"))] ++
       exitHiveMode sessionName normalStatusRight))
  ++ [("q", [TmuxCmd.switchClientSession sessionName] ++
            exitHiveMode sessionName normalStatusRight),
      ("t", [TmuxCmd.runShell ("hivecode theme toggle --session " ++ sessionName)] ++
            exitHiveMode sessionName normalStatusRight),
      ("Escape", exitHiveMode sessionName normalStatusRight)]

/-- The `Any` binding installed by `tmux bind-key -T hive Any`, which
catches every key without an explicit binding. -/
def hiveAnyBinding (sessionName normalStatusRight : String) : List TmuxCmd :=
  exitHiveMode sessionName normalStatusRight

/-- tmux key dispatch within the `hive` table: the key's own binding when
one exists, otherwise the `Any` binding. -/
def dispatchHive (sessionName projectName normalStatusRight key : String) :
    List TmuxCmd :=
  match (hiveTable sessionName projectName normalStatusRight).lookup key with
  | some cmds => cmds
  | none => hiveAnyBinding sessionName normalStatusRight

/-- Effect of one tmux command on the client's active key table
(`has` answers `tmux has-session` inside `if-shell`).  Only
`switch-client -T` changes the table. -/
def applyCmd (has : String → Bool) (table : String) : TmuxCmd → String
  | .switchClientTable t => t
  | .ifShellHasSession s thenCmd elseCmd =>
      if has s then applyCmd has table thenCmd else applyCmd has table elseCmd
  | _ => table

/-- Effect of a command sequence on the client's active key table. -/
def applyCmds (has : String → Bool) (table : String) (cmds : List TmuxCmd) :
    String :=
  cmds.foldl (applyCmd has) table

/-- The client's key table after pressing `key` while in the `hive` table. -/
def hiveModeStep (has : String → Bool)
    (sessionName projectName normalStatusRight key : String) : String :=
  applyCmds has "hive" (dispatchHive sessionName projectName normalStatusRight key)

/-! ## Worker lifecycle (`workers.ts` start/stop/kill/restart)

The session host and the filesystem touched by the lifecycle operations are
one state record.  Each host operation is a parameter returning the next
state and a success flag (`false` = `execSync` threw; the thrown call's own
side effects are folded into the returned state). -/

/-- The host + filesystem state the lifecycle operations act on. -/
structure SysState where
  sessions : List String
  dirs : List String
  files : List (String × String)
  pipedPanes : List (String × String)
  mouseOptionOn : List String
  sentKeys : List (String × String)
  gitAddCalls : Nat
deriving DecidableEq, Repr

/-- `sessionExists` from `workers.ts` (`tmux has-session`). -/
def SysState.sessionExists (st : SysState) (name : String) : Bool :=
  st.sessions.contains name

/-- `existsSync` on a directory path. -/
def SysState.dirExists (st : SysState) (p : String) : Bool :=
  st.dirs.contains p

/-- `mkdirSync(p, {recursive:true})`. -/
def SysState.mkdirSync (st : SysState) (p : String) : SysState :=
  { st with dirs := p :: st.dirs }

/-- `writeFileSync(p, c, {flag:'w'})`. -/
def SysState.writeFileSync (st : SysState) (p c : String) : SysState :=
  { st with files := (p, c) :: st.files }

/-- The external host operations shelled out to by the lifecycle code. -/
structure Host where
  gitWorktreeAdd : String → String → SysState → SysState × Bool
  newSession : String → String → SysState → SysState × Bool
  pipePane : String → String → SysState → SysState × Bool
  setMouseOption : String → SysState → SysState × Bool
  sendKeys : String → String → SysState → SysState × Bool
  killSession : String → SysState → SysState × Bool

/-- `createWorktree` from `workers.ts`: ensure the base directory, return the
per-slot path unchanged when it already exists, otherwise attempt
`git worktree add` (counted in `gitAddCalls`) with the derived workspace
branch; on a thrown attempt or a still-missing path fall back to the project
root. -/
def createWorktree (host : Host) (projectRoot worktreeBase : String)
    (workerId : Nat) (branch : Option String) (st : SysState) :
    String × SysState :=
  let worktreePath := getWorktreePath worktreeBase workerId
  let st1 := if ¬ st.dirExists worktreeBase then st.mkdirSync worktreeBase else st
  if st1.dirExists worktreePath then
    (worktreePath, st1)
  else
    let workspaceBranch := branch.getD ("worker-" ++ toString workerId ++ "-workspace")
    match host.gitWorktreeAdd worktreePath workspaceBranch
        { st1 with gitAddCalls := st1.gitAddCalls + 1 } with
    | (st2, true) =>
      (if st2.dirExists worktreePath then worktreePath else projectRoot, st2)
    | (st2, false) => (projectRoot, st2)

/-- `startWorker` from `workers.ts`.  Returns the success flag, the final
state, and the console lines printed. -/
def startWorker (host : Host) (cwd : String) (workerId : Nat) (st : SysState) :
    Bool × SysState × List String :=
  let config := getProjectConfig cwd
  let sessionName := getWorkerSessionName config.projectName workerId
  if st.sessionExists sessionName then
    (true, st, ["  Worker-" ++ toString workerId ++ " already running"])
  else
    let wres := createWorktree host config.projectRoot config.worktreeBase workerId none st
    let logPath := getWorkerLogPath config.projectName workerId
    let st2 := wres.2.writeFileSync logPath ""
    let failMsg := ["  Failed to start Worker-" ++ toString workerId]
    match host.newSession sessionName wres.1 st2 with
    | (st3, false) => (false, st3, failMsg)
    | (st3, true) =>
      match host.pipePane sessionName logPath st3 with
      | (st4, false) => (false, st4, failMsg)
      | (st4, true) =>
        match host.setMouseOption sessionName st4 with
        | (st5, false) => (false, st5, failMsg)
        | (st5, true) =>
          match host.sendKeys sessionName "claude --dangerously-skip-permissions" st5 with
          | (st6, false) => (false, st6, failMsg)
          | (st6, true) =>
            (true, st6,
             ["  Worker-" ++ toString workerId ++ " started (" ++ sessionName ++ ")"])

/-- `stopWorker` from `workers.ts`: when the session does not exist, log
"not running" and return `false`; otherwise send `/exit` to the session. -/
def stopWorker (host : Host) (cwd : String) (workerId : Nat) (st : SysState) :
    Bool × SysState × List String :=
  let config := getProjectConfig cwd
  let sessionName := getWorkerSessionName config.projectName workerId
  if ¬ st.sessionExists sessionName then
    (false, st, ["  Worker-" ++ toString workerId ++ " not running"])
  else
    match host.sendKeys sessionName "/exit" st with
    | (st1, true) => (true, st1, ["  Worker-" ++ toString workerId ++ " stopping..."])
    | (st1, false) => (false, st1, ["  Failed to stop Worker-" ++ toString workerId])

/-- `killWorker` from `workers.ts`: a missing session is a success with no
output; otherwise `tmux kill-session`. -/
def killWorker (host : Host) (cwd : String) (workerId : Nat) (st : SysState) :
    Bool × SysState × List String :=
  let config := getProjectConfig cwd
  let sessionName := getWorkerSessionName config.projectName workerId
  if ¬ st.sessionExists sessionName then
    (true, st, [])
  else
    match host.killSession sessionName st with
    | (st1, true) => (true, st1, ["  Worker-" ++ toString workerId ++ " killed"])
    | (st1, false) => (false, st1, ["  Failed to kill Worker-" ++ toString workerId])

/-- `restartWorker` from `workers.ts`: range-check the id, `killWorker`,
`execSync('sleep 1')` (a settle delay with no host or filesystem effect),
then `startWorker`. -/
def restartWorker (host : Host) (cwd : String) (workerId : Nat) (st : SysState) :
    SysState × List String :=
  if workerId < 1 ∨ WORKER_COUNT < workerId then
    (st, ["Error: Worker ID must be 1-" ++ toString WORKER_COUNT])
  else
    let kres := killWorker host cwd workerId st
    let sres := startWorker host cwd workerId kres.2.1
    (sres.2.1,
     ["Restarting Worker-" ++ toString workerId] ++ kres.2.2 ++ sres.2.2 ++
     ["Worker-" ++ toString workerId ++ " restarted"])

/-! ## Theorems -/

/-- Helper: a `lookup` hit is a member of the association list. -/
lemma lookup_mem {β : Type} (l : List (String × β)) (k : String) (v : β)
    (h : l.lookup k = some v) : (k, v) ∈ l := by
  induction l with
  | nil => simp [List.lookup] at h
  | cons hd tl ih =>
    obtain ⟨a, b⟩ := hd
    rw [List.lookup] at h
    rcases hbe : (k == a) with _ | _
    · rw [hbe] at h
      exact List.mem_cons_of_mem _ (ih h)
    · rw [hbe] at h
      obtain rfl : b = v := by injection h
      obtain rfl : k = a := by exact eq_of_beq hbe
      exact List.mem_cons_self _ _

/-- Helper: any command sequence ending in `exitHiveMode` leaves the client
in the `root` key table, whatever the prefix did. -/
lemma applyCmds_append_exitHiveMode (has : String → Bool)
    (table sessionName normalStatusRight : String) (pre : List TmuxCmd) :
    applyCmds has table (pre ++ exitHiveMode sessionName normalStatusRight) =
      "root" := by
  unfold applyCmds exitHiveMode
  rw [List.foldl_append]
  rfl

/-- Helper: every binding installed in the `hive` table consists of its
action followed by `exitHiveMode`. -/
lemma hiveTable_snd_exit (sessionName projectName normalStatusRight k : String)
    (cmds : List TmuxCmd)
    (h : (k, cmds) ∈ hiveTable sessionName projectName normalStatusRight) :
    ∃ pre, cmds = pre ++ exitHiveMode sessionName normalStatusRight := by
  simp only [hiveTable, List.mem_append, List.mem_cons, List.mem_map,
    List.mem_range, List.mem_singleton, List.not_mem_nil, or_false,
    Prod.mk.injEq] at h
  rcases h with h | h
  · rcases h with ⟨-, h⟩ | h
    · exact ⟨_, h⟩
    · obtain ⟨a, -, -, h⟩ := h
      exact ⟨_, h.symm⟩
  · rcases h with ⟨-, h⟩ | ⟨-, h⟩ | ⟨-, h⟩
    · exact ⟨_, h⟩
    · exact ⟨_, h⟩
    · exact ⟨[], by simpa using h⟩

/-- C1: from the `hive` key table, every key — the mapped keys `w`, `1`-`4`,
`q`, `t`, `Escape` as well as every unmapped key caught by the `Any`
binding — runs its bound action and unconditionally switches the client
back to the `root` key table: after exactly one key the table is `root`. -/
theorem hive_mode_one_key_returns_root (has : String → Bool)
    (sessionName projectName normalStatusRight key : String) :
    hiveModeStep has sessionName projectName normalStatusRight key = "root" := by
  unfold hiveModeStep dispatchHive
  cases hl : (hiveTable sessionName projectName normalStatusRight).lookup key with
  | none =>
    exact applyCmds_append_exitHiveMode has "hive" sessionName normalStatusRight []
  | some cmds =>
    obtain ⟨pre, rfl⟩ := hiveTable_snd_exit sessionName projectName
      normalStatusRight key cmds (lookup_mem _ _ _ hl)
    exact applyCmds_append_exitHiveMode has "hive" sessionName normalStatusRight pre

/-- C2: for every slot and filesystem state, reading the worker status
document of a missing file yields absent (`.ok none`), a file whose content
fails to parse also yields absent, and the read never throws (the result is
always `.ok`): no parse failure reaches the caller. -/
theorem readWorkerStatus_missing_or_malformed_absent
    (parse : String → Except String WorkerStatus) (fs : Fs) (hiveDir : String)
    (workerId : Nat) :
    (fs (statusFilePath hiveDir workerId) = none →
       readWorkerStatus parse fs hiveDir workerId = .ok none)
    ∧ (∀ c e, fs (statusFilePath hiveDir workerId) = some c →
       parse c = .error e →
       readWorkerStatus parse fs hiveDir workerId = .ok none)
    ∧ ∃ v, readWorkerStatus parse fs hiveDir workerId = .ok v := by
  refine ⟨?_, ?_, ?_⟩
  · intro h
    simp [readWorkerStatus, h]
  · intro c e hc hp
    simp [readWorkerStatus, readFileSync, hc, hp, Bind.bind, Except.bind]
  · cases hfs : fs (statusFilePath hiveDir workerId) with
    | none => exact ⟨none, by simp [readWorkerStatus, hfs]⟩
    | some c =>
      cases hp : parse c with
      | ok s =>
        exact ⟨some s, by
          simp [readWorkerStatus, readFileSync, hfs, hp, Bind.bind, Except.bind]⟩
      | error e =>
        exact ⟨none, by
          simp [readWorkerStatus, readFileSync, hfs, hp, Bind.bind, Except.bind]⟩

/-! Concrete instances used by witnesses and counterexamples. -/

/-- A status document as parsed from `{"status":"coding","branch":"feature/x"}`. -/
def docCoding : WorkerStatus :=
  { status := "coding", branch := some "feature/x", current := none
    percent := none, subagent := none }

/-- A concrete parse function: the content `"ok"` parses to `docCoding`,
anything else throws a syntax error. -/
def parseW0 : String → Except String WorkerStatus := fun s =>
  if s = "ok" then .ok docCoding else .error "SyntaxError"

/-- A filesystem with no files. -/
def fsMissing : Fs := fun _ => none

/-- A filesystem where slot 1's status file holds well-formed content. -/
def fsGood : Fs := fun p =>
  if p = statusFilePath "/h/proj/.hive" 1 then some "ok" else none

/-- A filesystem where slot 1's status file holds a half-written document. -/
def fsHalf : Fs := fun p =>
  if p = statusFilePath "/h/proj/.hive" 1 then some "half" else none

/-- A session host on which every session exists. -/
def sessionUp : String → Bool := fun _ => true

/-- Witness for C2: evaluated on a missing file and on malformed content,
the read returns `.ok none` both times. -/
theorem readWorkerStatus_missing_or_malformed_absent_witness :
    readWorkerStatus parseW0 fsMissing "/h/proj/.hive" 1 = .ok none ∧
      readWorkerStatus parseW0 fsHalf "/h/proj/.hive" 1 = .ok none :=
  ⟨(readWorkerStatus_missing_or_malformed_absent parseW0 fsMissing
      "/h/proj/.hive" 1).1 rfl,
   (readWorkerStatus_missing_or_malformed_absent parseW0 fsHalf
      "/h/proj/.hive" 1).2.1 "half" "SyntaxError" rfl rfl⟩

/-- C3 counterexample: a poll round in which slot 1's status file exists but
fails to parse.  The previous poll (on `fsGood`) observed `some docCoding`;
after the new poll the slot's aggregated status is `none` (absent), not the
previous-known value — the claim's fallback does not exist in the code. -/
theorem useWorkerStatusTick_parse_failure_cex :
    ((useWorkerStatusTick sessionUp parseW0 fsHalf "/h/proj"
        (getWorkersInfo sessionUp parseW0 fsGood "/h/proj"))[0]?).map
        WorkerInfo.status = some none
    ∧ ((getWorkersInfo sessionUp parseW0 fsGood "/h/proj")[0]?).map
        WorkerInfo.status = some (some docCoding)
    ∧ fsHalf (statusFilePath (getProjectConfig "/h/proj").hiveDir 1) = some "half"
    ∧ (none : Option WorkerStatus) ≠ some docCoding := by
  refine ⟨by decide, by decide, by decide, by decide⟩

/-- C3 as the code actually behaves (amended): when a slot's status file
exists but fails to parse, the poll replaces that slot's aggregated status
with absent (`none`), whatever the previous snapshot held; the parse failure
itself is swallowed (the read still returns `.ok`). -/
theorem useWorkerStatusTick_parse_failure_absent (sessionExists : String → Bool)
    (parse : String → Except String WorkerStatus) (fs : Fs) (cwd : String)
    (prev : List WorkerInfo) (k : Nat) (hk : k < 4) (c e : String)
    (hf : fs (statusFilePath (getProjectConfig cwd).hiveDir (k + 1)) = some c)
    (hp : parse c = .error e) :
    ((useWorkerStatusTick sessionExists parse fs cwd prev)[k]?).map
        WorkerInfo.status = some none
    ∧ readWorkerStatus parse fs (getProjectConfig cwd).hiveDir (k + 1) =
        .ok none := by
  have hread : readWorkerStatus parse fs (getProjectConfig cwd).hiveDir (k + 1) =
      .ok none := by
    simp [readWorkerStatus, readFileSync, hf, hp, Bind.bind, Except.bind]
  refine ⟨?_, hread⟩
  simp [useWorkerStatusTick, getWorkersInfo, WORKER_COUNT, hk,
    readWorkerStatusVal, hread]

/-- Witness for the amended C3 theorem at a concrete filesystem. -/
theorem useWorkerStatusTick_parse_failure_absent_witness :
    ((useWorkerStatusTick sessionUp parseW0 fsHalf "/h/proj" [])[0]?).map
        WorkerInfo.status = some none
    ∧ readWorkerStatus parseW0 fsHalf (getProjectConfig "/h/proj").hiveDir
        (0 + 1) = .ok none :=
  useWorkerStatusTick_parse_failure_absent sessionUp parseW0 fsHalf "/h/proj"
    [] 0 (by decide) "half" "SyntaxError" rfl rfl

/-- A status document with `percent` over 100, as parsed from
`{"status":"coding","branch":"feature/x","percent":150}`. -/
def doc150 : WorkerStatus :=
  { status := "coding", branch := some "feature/x", current := none
    percent := some 150, subagent := none }

/-- The same document with `percent` 30. -/
def doc30 : WorkerStatus :=
  { status := "coding", branch := some "feature/x", current := none
    percent := some 30, subagent := none }

/-- A slot-1 snapshot carrying `doc150`. -/
def info150 : WorkerInfo :=
  { id := 1, sessionName := getWorkerSessionName "proj" 1
    worktreePath := getWorktreePath "/h/.worktrees/proj" 1
    logPath := getWorkerLogPath "proj" 1, running := true, status := some doc150 }

/-- The same snapshot carrying `doc30`. -/
def info30 : WorkerInfo := { info150 with status := some doc30 }

/-- C4 counterexample: the dashboard card view and the CLI list row render
identically for `percent` 150 and `percent` 30, although the clamped values
(100 vs 30) differ — so the display contains no clamped percent at all; the
claimed clamping does not exist. -/
theorem display_percent_not_clamped_cex :
    workerCardView info150 = workerCardView info30
    ∧ listWorkerRow info150 = listWorkerRow info30
    ∧ doc150.percent = some 150
    ∧ min (150 : Int) 100 ≠ min (30 : Int) 100 := by
  refine ⟨by decide, by decide, by decide, by decide⟩

/-- C4 as the code actually behaves (amended): a status document whose
`percent` exceeds 100 is accepted without rejection — the parsed document
reaches the aggregated snapshot unchanged, `percent` included — but the
display then ignores `percent` entirely: neither the dashboard card nor the
CLI list renders it, clamped or otherwise. -/
theorem percent_accepted_and_ignored (sessionExists : String → Bool)
    (parse : String → Except String WorkerStatus) (fs : Fs) (cwd : String)
    (k : Nat) (c : String) (doc : WorkerStatus) (hk : k < 4)
    (hf : fs (statusFilePath (getProjectConfig cwd).hiveDir (k + 1)) = some c)
    (hp : parse c = .ok doc) :
    ((getWorkersInfo sessionExists parse fs cwd)[k]?).map WorkerInfo.status =
        some (some doc)
    ∧ (∀ (info : WorkerInfo) (p₁ p₂ : Option Int),
        workerCardView { info with status := some { doc with percent := p₁ } } =
          workerCardView { info with status := some { doc with percent := p₂ } })
    ∧ (∀ (info : WorkerInfo) (p₁ p₂ : Option Int),
        listWorkerRow { info with status := some { doc with percent := p₁ } } =
          listWorkerRow { info with status := some { doc with percent := p₂ } }) := by
  refine ⟨?_, fun info p₁ p₂ => rfl, fun info p₁ p₂ => rfl⟩
  have hread : readWorkerStatus parse fs (getProjectConfig cwd).hiveDir (k + 1) =
      .ok (some doc) := by
    simp [readWorkerStatus, readFileSync, hf, hp, Bind.bind, Except.bind]
  simp [getWorkersInfo, WORKER_COUNT, hk, readWorkerStatusVal, hread]

/-- A concrete parse function accepting the percent-150 document. -/
def parse150 : String → Except String WorkerStatus := fun s =>
  if s = "p150" then .ok doc150 else .error "SyntaxError"

/-- A filesystem where slot 1's status file holds the percent-150 document. -/
def fs150 : Fs := fun p =>
  if p = statusFilePath "/h/proj/.hive" 1 then some "p150" else none

/-- Witness for the amended C4 theorem: the percent-150 document is accepted
into the slot-1 snapshot, and the card view is unchanged when the percent is
replaced. -/
theorem percent_accepted_and_ignored_witness :
    ((getWorkersInfo sessionUp parse150 fs150 "/h/proj")[0]?).map
        WorkerInfo.status = some (some doc150)
    ∧ workerCardView { info150 with status := some { doc150 with percent := some 150 } } =
        workerCardView { info150 with status := some { doc150 with percent := some 100 } } :=
  ⟨(percent_accepted_and_ignored sessionUp parse150 fs150 "/h/proj" 0 "p150"
      doc150 (by decide) rfl rfl).1,
   (percent_accepted_and_ignored sessionUp parse150 fs150 "/h/proj" 0 "p150"
      doc150 (by decide) rfl rfl).2.1 info150 (some 150) (some 100)⟩

/-- Helper: `mkdirSync` only adds a directory, so existing paths persist. -/
lemma dirExists_mkdirSync (st : SysState) (p q : String)
    (h : st.dirExists q = true) : (st.mkdirSync p).dirExists q = true := by
  simp only [SysState.dirExists, SysState.mkdirSync] at h ⊢
  simp only [List.contains_cons, Bool.or_eq_true]
  exact Or.inr h

/-- Helper: when the per-slot worktree path already exists, `createWorktree`
returns it with no `git worktree add` attempt; the only state change is the
possible creation of the base directory. -/
lemma createWorktree_of_exists (host : Host) (projectRoot worktreeBase : String)
    (workerId : Nat) (branch : Option String) (st : SysState)
    (h : st.dirExists (getWorktreePath worktreeBase workerId) = true) :
    createWorktree host projectRoot worktreeBase workerId branch st =
      (getWorktreePath worktreeBase workerId,
       if ¬ st.dirExists worktreeBase then st.mkdirSync worktreeBase else st) := by
  unfold createWorktree
  by_cases hb : st.dirExists worktreeBase
  · simp [hb, h]
  · simp [hb, dirExists_mkdirSync st worktreeBase _ h]

/-- C5: when the worktree directory already exists at the deterministic
per-slot path, `createWorktree` returns that path unchanged with no
`git worktree add` attempt; hence two consecutive calls with the same
arguments both return that identical path and neither makes a creation
attempt (the attempt counter never moves). -/
theorem createWorktree_existing_idempotent (host : Host)
    (projectRoot worktreeBase : String) (workerId : Nat)
    (branch : Option String) (st : SysState)
    (h : st.dirExists (getWorktreePath worktreeBase workerId) = true) :
    (createWorktree host projectRoot worktreeBase workerId branch st).1 =
        getWorktreePath worktreeBase workerId
    ∧ (createWorktree host projectRoot worktreeBase workerId branch st).2.gitAddCalls =
        st.gitAddCalls
    ∧ (createWorktree host projectRoot worktreeBase workerId branch
          (createWorktree host projectRoot worktreeBase workerId branch st).2).1 =
        getWorktreePath worktreeBase workerId
    ∧ (createWorktree host projectRoot worktreeBase workerId branch
          (createWorktree host projectRoot worktreeBase workerId branch st).2).2.gitAddCalls =
        st.gitAddCalls := by
  by_cases hb : st.dirExists worktreeBase
  · have h1 : createWorktree host projectRoot worktreeBase workerId branch st =
        (getWorktreePath worktreeBase workerId, st) := by
      rw [createWorktree_of_exists host projectRoot worktreeBase workerId branch st h, hb]
      simp
    exact ⟨by simp [h1], by simp [h1], by simp [h1], by simp [h1]⟩
  · have hb' : st.dirExists worktreeBase = false := by
      simpa using hb
    have h1 : createWorktree host projectRoot worktreeBase workerId branch st =
        (getWorktreePath worktreeBase workerId, st.mkdirSync worktreeBase) := by
      rw [createWorktree_of_exists host projectRoot worktreeBase workerId branch st h, hb']
      simp
    have hbase : (st.mkdirSync worktreeBase).dirExists worktreeBase = true := by
      simp [SysState.dirExists, SysState.mkdirSync]
    have h2 : createWorktree host projectRoot worktreeBase workerId branch
        (st.mkdirSync worktreeBase) =
        (getWorktreePath worktreeBase workerId, st.mkdirSync worktreeBase) := by
      rw [createWorktree_of_exists host projectRoot worktreeBase workerId branch
        (st.mkdirSync worktreeBase) (dirExists_mkdirSync st worktreeBase _ h), hbase]
      simp
    have hcalls : (st.mkdirSync worktreeBase).gitAddCalls = st.gitAddCalls := rfl
    exact ⟨by simp [h1], by simp [h1, hcalls],
      by simp [h1, h2], by simp [h1, h2, hcalls]⟩

/-- A deterministic session host used for witness evaluation. -/
def host0 : Host :=
  { gitWorktreeAdd := fun path _branch st => ({ st with dirs := path :: st.dirs }, true)
    newSession := fun name _cwd st => ({ st with sessions := name :: st.sessions }, true)
    pipePane := fun name log st => ({ st with pipedPanes := (name, log) :: st.pipedPanes }, true)
    setMouseOption := fun name st => ({ st with mouseOptionOn := name :: st.mouseOptionOn }, true)
    sendKeys := fun t k st => ({ st with sentKeys := (t, k) :: st.sentKeys }, true)
    killSession := fun name st => ({ st with sessions := st.sessions.erase name }, true) }

/-- An empty host + filesystem state. -/
def emptySys : SysState :=
  { sessions := [], dirs := [], files := [], pipedPanes := []
    mouseOptionOn := [], sentKeys := [], gitAddCalls := 0 }

/-- A state in which slot 2's worktree already exists. -/
def stWorktree2 : SysState :=
  { emptySys with
    dirs := [getWorktreePath "/h/.worktrees/proj" 2, "/h/.worktrees/proj"] }

/-- Witness for C5 on a concrete state with the slot-2 worktree present. -/
theorem createWorktree_existing_idempotent_witness :
    (createWorktree host0 "/h/proj" "/h/.worktrees/proj" 2 none stWorktree2).1 =
        getWorktreePath "/h/.worktrees/proj" 2
    ∧ (createWorktree host0 "/h/proj" "/h/.worktrees/proj" 2 none stWorktree2).2.gitAddCalls =
        stWorktree2.gitAddCalls
    ∧ (createWorktree host0 "/h/proj" "/h/.worktrees/proj" 2 none
          (createWorktree host0 "/h/proj" "/h/.worktrees/proj" 2 none stWorktree2).2).1 =
        getWorktreePath "/h/.worktrees/proj" 2
    ∧ (createWorktree host0 "/h/proj" "/h/.worktrees/proj" 2 none
          (createWorktree host0 "/h/proj" "/h/.worktrees/proj" 2 none stWorktree2).2).2.gitAddCalls =
        stWorktree2.gitAddCalls :=
  createWorktree_existing_idempotent host0 "/h/proj" "/h/.worktrees/proj" 2
    none stWorktree2 (by decide)

/-- C6: when the slot's session does not exist, `restartWorker` performs the
same state changes as plain `startWorker`: the kill step is a no-op success
(state unchanged, nothing printed) and the settle delay touches no state, so
the final host/filesystem state of restart equals that of start. -/
theorem restartWorker_not_running_eq_start (host : Host) (cwd : String)
    (workerId : Nat) (st : SysState) (hlo : 1 ≤ workerId)
    (hhi : workerId ≤ WORKER_COUNT)
    (h : st.sessionExists
        (getWorkerSessionName (getProjectConfig cwd).projectName workerId) = false) :
    killWorker host cwd workerId st = (true, st, [])
    ∧ (restartWorker host cwd workerId st).1 =
        (startWorker host cwd workerId st).2.1 := by
  have hkill : killWorker host cwd workerId st = (true, st, []) := by
    simp [killWorker, h]
  refine ⟨hkill, ?_⟩
  have hcond : ¬ (workerId = 0 ∨ WORKER_COUNT < workerId) := by
    simp only [WORKER_COUNT] at hhi ⊢
    omega
  simp [restartWorker, hkill, hcond]

/-- Witness for C6 on the empty state: no session exists, so restart and
start agree. -/
theorem restartWorker_not_running_eq_start_witness :
    killWorker host0 "/h/proj" 2 emptySys = (true, emptySys, [])
    ∧ (restartWorker host0 "/h/proj" 2 emptySys).1 =
        (startWorker host0 "/h/proj" 2 emptySys).2.1 :=
  restartWorker_not_running_eq_start host0 "/h/proj" 2 emptySys (by decide)
    (by decide) (by decide)

/-- C7 counterexample: on a state with no sessions, `stopWorker` returns
`false` — the very value its failure path returns — while the analogous
idempotent `killWorker` returns the success value `true` on the same state.
The session-not-exists case is therefore not folded into a no-op success. -/
theorem stopWorker_not_running_returns_failure_cex :
    (stopWorker host0 "/h/proj" 2 emptySys).1 = false
    ∧ (killWorker host0 "/h/proj" 2 emptySys).1 = true := by
  refine ⟨by decide, by decide⟩

/-- C7 as the code actually behaves (amended): stopping a slot whose session
does not exist is a no-op that reports "not running", changes no host or
filesystem state and throws nothing — but it returns `false`, the same
result value as the failure path, rather than a success result. -/
theorem stopWorker_not_running_noop (host : Host) (cwd : String)
    (workerId : Nat) (st : SysState)
    (h : st.sessionExists
        (getWorkerSessionName (getProjectConfig cwd).projectName workerId) = false) :
    stopWorker host cwd workerId st =
      (false, st, ["  Worker-" ++ toString workerId ++ " not running"]) := by
  simp [stopWorker, h]

/-- Witness for the amended C7 theorem on the empty state. -/
theorem stopWorker_not_running_noop_witness :
    stopWorker host0 "/h/proj" 2 emptySys =
      (false, emptySys, ["  Worker-" ++ toString 2 ++ " not running"]) :=
  stopWorker_not_running_noop host0 "/h/proj" 2 emptySys (by decide)

/-- C8 counterexample: with tracked size 5, a disappeared file and a file
shrunk to size 2 both leave the tracked size at 5 — it is not reset to zero,
so the tailer does not treat the file as a fresh stream. -/
theorem pollLog_no_reset_cex :
    (pollLog none { lines := ["a"], lastSize := 5 }).lastSize = 5
    ∧ (pollLog (some "ab") { lines := ["a"], lastSize := 5 }).lastSize = 5
    ∧ "ab".length < 5
    ∧ (5 : Nat) ≠ 0 := by
  refine ⟨rfl, by decide, by decide, by decide⟩

/-- C8 as the code actually behaves (amended): when the tracked file has
disappeared, or exists with size at most the last-observed size (shrunk or
unchanged), the poll step leaves the tailer state — tracked size and line
window — completely unchanged; nothing is re-read until the file grows
beyond the previously observed size.  (The tracked size is reset to zero
only when the hook re-runs for a different log path or worker.) -/
theorem pollLog_skips_on_shrink_or_missing (st : TailState) :
    pollLog none st = st
    ∧ ∀ c : String, c.length ≤ st.lastSize → pollLog (some c) st = st := by
  refine ⟨rfl, fun c hc => ?_⟩
  simp only [pollLog]
  rw [if_neg (by omega)]

/-- Witness for the amended C8 theorem at a concrete state and file. -/
theorem pollLog_skips_on_shrink_or_missing_witness :
    pollLog none { lines := ["a"], lastSize := 5 } =
        ({ lines := ["a"], lastSize := 5 } : TailState)
    ∧ pollLog (some "ab") { lines := ["a"], lastSize := 5 } =
        ({ lines := ["a"], lastSize := 5 } : TailState) :=
  ⟨(pollLog_skips_on_shrink_or_missing { lines := ["a"], lastSize := 5 }).1,
   (pollLog_skips_on_shrink_or_missing { lines := ["a"], lastSize := 5 }).2
     "ab" (by decide)⟩

/-- C9: whatever the session host answers and whatever status files exist,
one aggregation round returns exactly 4 `WorkerInfo` records with ids
1, 2, 3, 4 in increasing order, whose `sessionName`, `worktreePath` and
`logPath` are the deterministic naming functions applied to the project
identity and the id — the snapshot's shape and identity fields are
independent of liveness and status state. -/
theorem getWorkersInfo_shape (sessionExists : String → Bool)
    (parse : String → Except String WorkerStatus) (fs : Fs) (cwd : String) :
    (getWorkersInfo sessionExists parse fs cwd).length = 4
    ∧ (getWorkersInfo sessionExists parse fs cwd).map WorkerInfo.id = [1, 2, 3, 4]
    ∧ (getWorkersInfo sessionExists parse fs cwd).map WorkerInfo.sessionName =
        [1, 2, 3, 4].map (getWorkerSessionName (getProjectConfig cwd).projectName)
    ∧ (getWorkersInfo sessionExists parse fs cwd).map WorkerInfo.worktreePath =
        [1, 2, 3, 4].map (getWorktreePath (getProjectConfig cwd).worktreeBase)
    ∧ (getWorkersInfo sessionExists parse fs cwd).map WorkerInfo.logPath =
        [1, 2, 3, 4].map (getWorkerLogPath (getProjectConfig cwd).projectName) :=
  ⟨rfl, rfl, rfl, rfl, rfl⟩

/-- Helper: `readConfigFile` maps a missing file and unparseable content
alike to the empty config (the `try/catch` swallows the failure). -/
lemma readConfigFile_bad (parse : String → Except String HiveConfig) (fs : Fs)
    (path : String) (h : configFileBad parse fs path) :
    readConfigFile parse fs path = ∅ := by
  rcases h with h | ⟨c, e, hc, hp⟩
  · simp [readConfigFile, h]
  · simp [readConfigFile, readFileSync, hc, hp, Bind.bind, Except.bind]

/-- C10: for either config level (global or local), a missing file or
content that fails to parse makes `readConfigFile` treat that level as the
empty config (`config get` itself never throws — every read and parse
failure is caught inside `readConfigFile`).  Consequently: a corrupt or
missing local file makes `config get` return the global value; a corrupt or
missing global file makes it return the local value (so neither a corrupt
local file masking a valid global value nor the reverse can occur); and
when both levels are bad the result is `undefined` (`none`). -/
theorem getConfigValue_bad_level_falls_back
    (parse : String → Except String HiveConfig) (fs : Fs) (home root : String) :
    (configFileBad parse fs (getLocalConfigPath root) →
       getLocalConfig parse fs root = ∅
       ∧ getConfigValue parse fs home (some root) =
           (getGlobalConfig parse fs home).theme)
    ∧ (configFileBad parse fs (globalConfigPath home) →
       getGlobalConfig parse fs home = ∅
       ∧ getConfigValue parse fs home (some root) =
           (getLocalConfig parse fs root).theme)
    ∧ (configFileBad parse fs (getLocalConfigPath root) →
       configFileBad parse fs (globalConfigPath home) →
       getConfigValue parse fs home (some root) = none) := by
  have hempty : (∅ : HiveConfig).theme = none := rfl
  refine ⟨fun hl => ?_, fun hg => ?_, fun hl hg => ?_⟩
  · have h1 : getLocalConfig parse fs root = ∅ :=
      readConfigFile_bad parse fs (getLocalConfigPath root) hl
    refine ⟨h1, ?_⟩
    simp [getConfigValue, getMergedConfig, h1, hempty]
  · have h1 : getGlobalConfig parse fs home = ∅ :=
      readConfigFile_bad parse fs (globalConfigPath home) hg
    refine ⟨h1, ?_⟩
    simp [getConfigValue, getMergedConfig, h1, hempty]
  · have h1 : getLocalConfig parse fs root = ∅ :=
      readConfigFile_bad parse fs (getLocalConfigPath root) hl
    have h2 : getGlobalConfig parse fs home = ∅ :=
      readConfigFile_bad parse fs (globalConfigPath home) hg
    simp [getConfigValue, getMergedConfig, h1, h2, hempty]

/-- A concrete config parse: `"dark"` parses to a theme-dark document,
anything else throws a syntax error. -/
def parseCfg0 : String → Except String HiveConfig := fun s =>
  if s = "dark" then .ok { theme := some "dark" } else .error "SyntaxError"

/-- A filesystem with a valid global config and a corrupt local config. -/
def fsCfg : Fs := fun p =>
  if p = globalConfigPath "/home/u" then some "dark"
  else if p = getLocalConfigPath "/h/proj" then some "corrupt"
  else none

/-- A filesystem with no global config and a corrupt local config. -/
def fsCfgNoGlobal : Fs := fun p =>
  if p = getLocalConfigPath "/h/proj" then some "corrupt" else none

/-- A filesystem with a corrupt global config and a valid local config. -/
def fsCfgBadGlobal : Fs := fun p =>
  if p = globalConfigPath "/home/u" then some "corrupt"
  else if p = getLocalConfigPath "/h/proj" then some "dark"
  else none

/-- Witness for C10 covering all three parts: a corrupt local file lets the
global value win, a corrupt global file lets the local value win, and with
both levels bad the result is `none`. -/
theorem getConfigValue_bad_level_falls_back_witness :
    getConfigValue parseCfg0 fsCfg "/home/u" (some "/h/proj") =
        (getGlobalConfig parseCfg0 fsCfg "/home/u").theme
    ∧ getConfigValue parseCfg0 fsCfgBadGlobal "/home/u" (some "/h/proj") =
        (getLocalConfig parseCfg0 fsCfgBadGlobal "/h/proj").theme
    ∧ getConfigValue parseCfg0 fsCfgNoGlobal "/home/u" (some "/h/proj") = none :=
  ⟨((getConfigValue_bad_level_falls_back parseCfg0 fsCfg "/home/u" "/h/proj").1
      (Or.inr ⟨"corrupt", "SyntaxError", rfl, rfl⟩)).2,
   ((getConfigValue_bad_level_falls_back parseCfg0 fsCfgBadGlobal "/home/u"
      "/h/proj").2.1 (Or.inr ⟨"corrupt", "SyntaxError", rfl, rfl⟩)).2,
   (getConfigValue_bad_level_falls_back parseCfg0 fsCfgNoGlobal "/home/u"
      "/h/proj").2.2 (Or.inr ⟨"corrupt", "SyntaxError", rfl, rfl⟩) (Or.inl rfl)⟩

end Hive
